import Mathlib

/-!
Verification of the edge-function pipeline in `src/index.js`: JSON pass-through
to the Apps Script backend (`appsPost`, `/api/prepare`), the paginated
fetch-render-archive background loop of `/api/render` and `/api/run`, the
per-page rendering call (`renderPng`), and the request dispatch
(CORS preflight, health check, API-key check, method check).

The JavaScript is embedded shallowly: external collaborators (the Apps Script
backend, the headless browser, `JSON.parse`) are parameters of the model;
stateful archive writing is modelled as a trace of `ZipEvent`s; the unbounded
`while (true)` pagination loop is modelled with explicit fuel, where running
out of fuel (`none`) corresponds to a run that never terminates (and whose
`finally` block therefore never executes).
-/

set_option autoImplicit false

namespace Spec2Proof

/-- JSON values, as produced by `JSON.parse` and consumed by `JSON.stringify`.
Numbers are restricted to integers (all numbers appearing in this service's
payloads are integral). -/
inductive Json where
  | null
  | bool (b : Bool)
  | num (n : Int)
  | str (s : String)
  | arr (items : List Json)
  | obj (fields : List (String × Json))

/-- JavaScript truthiness of a JSON value (`!data.ok` and `p.name || …`
checks in the source). -/
def Json.truthy : Json → Bool
  | .null => false
  | .bool b => b
  | .num n => !(n == 0)
  | .str s => !(s == "")
  | .arr _ => true
  | .obj _ => true

/-- Property access `data.k` on a parsed JSON object: `none` models
`undefined` (absent field or non-object receiver). -/
def jsonGet (j : Json) (k : String) : Option Json :=
  match j with
  | .obj fields => fields.lookup k
  | _ => none

/-- Truthiness of a possibly-absent property (`undefined` is falsy). -/
def truthyOpt (o : Option Json) : Bool :=
  match o with
  | none => false
  | some v => v.truthy

/-- `JSON.stringify` escaping for one character of a string literal. -/
def escapeChar (c : Char) : String :=
  if c = '"' then "\\\""
  else if c = '\\' then "\\\\"
  else if c = '\n' then "\\n"
  else if c = '\r' then "\\r"
  else if c = '\t' then "\\t"
  else String.singleton c

/-- `JSON.stringify` escaping of a whole string literal body. -/
def escapeString (s : String) : String :=
  String.join (s.toList.map escapeChar)

mutual

/-- `JSON.stringify` (no spacing argument, as called by `json(...)` in the
source): the canonical compact serialization, preserving field order. -/
def Json.render : Json → String
  | .null => "null"
  | .bool true => "true"
  | .bool false => "false"
  | .num n => toString n
  | .str s => "\"" ++ escapeString s ++ "\""
  | .arr items => "[" ++ renderItems items ++ "]"
  | .obj fields => "\x7b" ++ renderFields fields ++ "\x7d"

/-- Comma-separated serialization of array elements. -/
def renderItems : List Json → String
  | [] => ""
  | [x] => Json.render x
  | x :: y :: rest => Json.render x ++ "," ++ renderItems (y :: rest)

/-- Comma-separated serialization of object fields. -/
def renderFields : List (String × Json) → String
  | [] => ""
  | [(k, v)] => "\"" ++ escapeString k ++ "\":" ++ Json.render v
  | (k, v) :: f :: rest =>
    "\"" ++ escapeString k ++ "\":" ++ Json.render v ++ "," ++ renderFields (f :: rest)

end

/-- An HTTP response as far as the claims are concerned: status and body text
(the CORS/content-type headers are constant boilerplate). -/
structure HttpResponse where
  status : Nat
  body : String
deriving Repr, DecidableEq

/-- `json(obj, status)` from the source: serialize and wrap. -/
def jsonResponse (v : Json) (status : Nat) : HttpResponse :=
  ⟨status, Json.render v⟩

/-- `errJson(message, status)` from the source (no `extra` fields, as in
every call site relevant to the claims). -/
def errJson (message : String) (status : Nat) : HttpResponse :=
  jsonResponse (.obj [("ok", .bool false), ("error", .str message)]) status

/-- The whitespace characters relevant to trimming here. -/
def isWs (c : Char) : Bool := c = ' ' || c = '\t' || c = '\n' || c = '\r'

/-- Drop leading whitespace from a character list. -/
def dropWhileWs : List Char → List Char
  | [] => []
  | c :: cs => if isWs c then dropWhileWs cs else c :: cs

/-- `String.prototype.trim`, executable over the character list. -/
def jsTrim (s : String) : String :=
  ⟨(dropWhileWs (dropWhileWs s.data).reverse).reverse⟩

/-- Bool test that the first list is a prefix of the second. -/
def prefixOfL : List Char → List Char → Bool
  | [], _ => true
  | _ :: _, [] => false
  | a :: as, b :: bs => a == b && prefixOfL as bs

/-- `String.prototype.startsWith`, executable over the character list. -/
def jsStartsWith (s pre : String) : Bool := prefixOfL pre.data s.data

/-- Substring occurrence over character lists. -/
def containsSubL : List Char → List Char → Bool
  | [], pat => pat.isEmpty
  | c :: rest, pat => prefixOfL pat (c :: rest) || containsSubL rest pat

/-- Substring test, modelling JavaScript `String.prototype.includes`. -/
def containsSub (hay pat : String) : Bool := containsSubL hay.data pat.data

/-- `String.prototype.toLowerCase`, as applied to the content-type header. -/
def lowerStr (s : String) : String := ⟨s.data.map Char.toLower⟩

/-- `text.slice(0, n)`: the first n characters, used for error snippets. -/
def strTake (s : String) (n : Nat) : String := ⟨s.data.take n⟩

/-- The raw upstream HTTP response from the Apps Script backend, as observed
by `appsPost`: content type header and body text. -/
structure UpstreamResp where
  contentType : String
  bodyText : String
deriving Repr, DecidableEq

/-- The `looksHtml` test of `appsPost` (source lines 45-50): content type
mentions `text/html`, or the trimmed body starts with an HTML-ish prefix. -/
def looksHtml (ct trimmed : String) : Bool :=
  containsSub ct "text/html" ||
  jsStartsWith trimmed "<!doctype" ||
  jsStartsWith trimmed "<html" ||
  jsStartsWith trimmed "<head" ||
  jsStartsWith trimmed "<"

/-- Fixed intro of the error thrown when the backend answers with HTML. -/
def htmlMsgIntro : String :=
  "Apps Script trả HTML (thường do deploy chưa để Anyone hoặc dùng sai /exec). Snippet: "

/-- Error message thrown when the backend answers with HTML (source line 53):
fixed text followed by the first 200 characters of the trimmed body. -/
def htmlSnippetMsg (trimmed : String) : String :=
  htmlMsgIntro ++ strTake trimmed 200

/-- Error message thrown when the body fails to parse as JSON (source line 63). -/
def nonJsonMsg (trimmed : String) : String :=
  "Apps Script không trả JSON. Snippet: " ++ strTake trimmed 200

/-- `new Error(data.error || "Apps Script error")`: a non-empty string field
is used as the message; an absent or falsy field falls back to the default;
another truthy JSON value is stringified. -/
def jsErrorMessage (o : Option Json) (fallback : String) : String :=
  match o with
  | some (.str s) => if s = "" then fallback else s
  | some v => if v.truthy then Json.render v else fallback
  | none => fallback

/-- `appsPost` (source lines 30-68), from the point the upstream response is
in hand.  `parse` is the platform's `JSON.parse`, partialized to `Option`
(`none` = throws).  Result: `.error msg` models a thrown `Error(msg)`,
`.ok data` the parsed payload with a truthy `ok` flag. -/
def appsPost (parse : String → Option Json) (resp : UpstreamResp) : Except String Json :=
  let ct := lowerStr resp.contentType
  let trimmed := jsTrim resp.bodyText
  if looksHtml ct trimmed then
    .error (htmlSnippetMsg trimmed)
  else
    match parse trimmed with
    | none => .error (nonJsonMsg trimmed)
    | some data =>
      if truthyOpt (jsonGet data "ok") then .ok data
      else .error (jsErrorMessage (jsonGet data "error") "Apps Script error")

/-- A value returned by `form.get("file")`: a plain string or an uploaded
file (name plus bytes); `none` models an absent field. -/
inductive FormVal where
  | strVal (s : String)
  | fileVal (name : String) (bytes : List Nat)
deriving Repr, DecidableEq

/-- The `/api/prepare` handler (source lines 134-158) given the upstream
response it will observe: reject a missing or string-valued `file` field with
`errJson("Thiếu file")` (status 400, the default), otherwise call `appsPost`
and return `json(data)`; an `appsPost` exception reaches the top-level
`catch` (source line 313) which answers `errJson(message, 500)`. -/
def handlePrepare (parse : String → Option Json) (file : Option FormVal)
    (upstream : UpstreamResp) : HttpResponse :=
  match file with
  | none => errJson "Thiếu file" 400
  | some (.strVal _) => errJson "Thiếu file" 400
  | some (.fileVal _ _) =>
    match appsPost parse upstream with
    | .error e => errJson e 500
    | .ok data => jsonResponse data 200

/-- One renderable page descriptor from a `buildPages` batch.  `name` is
`Option String` so that an absent field and an empty string can both be
distinguished from a real name (both are falsy in `p.name || …`). -/
structure PageDesc where
  name : Option String
  html : String
deriving Repr, DecidableEq

/-- One `buildPages` batch as the loop reads it off the backend's JSON:
`pages` (with `pageRes.pages || []` collapsing an absent list to `[]`),
the truthiness of `done`, and `nextOffset`. -/
structure PageBatch where
  pages : List PageDesc
  done : Bool
  nextOffset : Nat
deriving Repr, DecidableEq

/-- JavaScript `opt || dflt` for strings: absent or empty falls back. -/
def orDefaultStr (o : Option String) (d : String) : String :=
  match o with
  | none => d
  | some s => if s = "" then d else s

/-- Archive entry name chosen at source lines 199/286:
`p.name || page_<offset>.png` where `offset` is the batch offset. -/
def entryName (p : PageDesc) (offset : Nat) : String :=
  orDefaultStr p.name ("page_" ++ toString offset ++ ".png")

/-- Observable actions of the background loop on the archive writer.
`fail msg` marks the point where an exception escaped into the `catch`
block; `endZip` is the `zip.end()` call of the `finally` block. -/
inductive ZipEvent where
  | addEntry (name : String)
  | pushData (name : String) (bytes : List Nat)
  | fail (message : String)
  | endZip
deriving Repr, DecidableEq

/-- The `for (const p of pageRes.pages || [])` body (source lines 198-205):
per page, create and add a `ZipPassThrough` entry, render, then push the
bytes with `final = true`.  A rendering failure happens after the entry was
added; the exception aborts the rest of the batch. -/
def processPages (render : String → Except String (List Nat)) (offset : Nat) :
    List PageDesc → List ZipEvent × Option String
  | [] => ([], none)
  | p :: rest =>
    match render p.html with
    | .error e => ([.addEntry (entryName p offset), .fail e], some e)
    | .ok bytes =>
      match processPages render offset rest with
      | (evs, err) =>
        (.addEntry (entryName p offset) :: .pushData (entryName p offset) bytes :: evs, err)

/-- Outcome of the `while (true)` pagination loop body (source lines 185-209):
the offsets at which `buildPages` was fetched (one per backend call, in
order), the archive-writer events, and the message of the exception that
ended the loop, if any. -/
structure LoopResult where
  offsets : List Nat
  events : List ZipEvent
  failure : Option String
deriving Repr, DecidableEq

/-- The pagination loop, fuelled.  `backend offset limit` is the composition
of `appsPost {action:"buildPages", offset, limit}` with reading the batch
fields off the returned JSON; `limit` is the constant 10 of the source.
`none` models a loop still running when the fuel runs out (the source has
no iteration bound).  Termination paths: backend call throws, a render
throws, or the batch reports a truthy `done`; otherwise the next offset is
the backend-reported `nextOffset`. -/
def fetchLoop (backend : Nat → Nat → Except String PageBatch)
    (render : String → Except String (List Nat)) :
    Nat → Nat → Option LoopResult
  | 0, _ => none
  | fuel + 1, offset =>
    match backend offset 10 with
    | .error e => some ⟨[offset], [.fail e], some e⟩
    | .ok batch =>
      match processPages render offset batch.pages with
      | (evs, some e) => some ⟨[offset], evs, some e⟩
      | (evs, none) =>
        if batch.done then some ⟨[offset], evs, none⟩
        else
          match fetchLoop backend render fuel batch.nextOffset with
          | none => none
          | some r => some ⟨offset :: r.offsets, evs ++ r.events, r.failure⟩

/-- The whole detached background task of `/api/render` and `/api/run`
(source lines 181-220 and 268-306).  `launch` is the
`await puppeteer.launch(env.MYBROWSER)` of lines 183/270, which is awaited
before the `try` block: when it rejects, the task terminates with no
writer action at all — in particular `zip.end()` is never called.  When it
resolves, the loop runs from offset 0 and, whatever happens (`catch` only
logs), the `finally` block closes the browser and calls `zip.end()` at the
end.  `none` = the loop never terminated, so the `finally` never ran. -/
def backgroundTask (launch : Except String Unit)
    (backend : Nat → Nat → Except String PageBatch)
    (render : String → Except String (List Nat)) (fuel : Nat) :
    Option (List ZipEvent) :=
  match launch with
  | .error _ => some []
  | .ok _ =>
    match fetchLoop backend render fuel 0 with
    | none => none
    | some r => some (r.events ++ [.endZip])

/-- Result of the `/api/render` handler: either a complete JSON response
returned before the archive stream was opened and before the rendering
engine was launched (`early`), or the streamed ZIP response together with
the background task it spawned (`stream`). -/
inductive RenderHandlerResult where
  | early (resp : HttpResponse)
  | stream (zipName : String) (task : Option (List ZipEvent))
deriving Repr, DecidableEq

/-- The `/api/render` handler (source lines 163-223): coerce and trim
`body.outputSpreadsheetId || ""`; when empty, answer
`errJson("Thiếu outputSpreadsheetId")` (status 400) — this happens before
`streamZipResponse` and before `puppeteer.launch`; otherwise open the
stream named `body.zipName || "bang_con_png.zip"` and start the task
(whose first step is the `puppeteer.launch` await). -/
def handleRender (launch : Except String Unit)
    (backend : Nat → Nat → Except String PageBatch)
    (render : String → Except String (List Nat)) (fuel : Nat)
    (outputSpreadsheetId : Option String) (zipName : Option String) :
    RenderHandlerResult :=
  let oid := jsTrim (outputSpreadsheetId.getD "")
  if oid = "" then .early (errJson "Thiếu outputSpreadsheetId" 400)
  else
    .stream (orDefaultStr zipName "bang_con_png.zip")
      (backgroundTask launch backend render fuel)

/-- `requireKey` (source lines 24-28): no configured key (absent or empty,
both falsy) disables the check; otherwise the `x-api-key` header
(`|| ""`) must equal the key. -/
def requireKey (apiKey : Option String) (headerKey : Option String) : Option String :=
  if apiKey.getD "" = "" then none
  else if headerKey.getD "" = apiKey.getD "" then none
  else some "Unauthorized"

/-- The health-check payload of the `GET` branch (source line 124). -/
def healthJson : Json :=
  .obj [("ok", .bool true),
        ("endpoints", .arr [.str "/api/prepare", .str "/api/render", .str "/api/run"])]

/-- Routing outcome of the top of `fetch` (source lines 118-130): CORS
preflight, health check, an error response, or dispatch of a POST to a
path handler. -/
inductive Dispatch where
  | preflight
  | health (resp : HttpResponse)
  | errorResp (resp : HttpResponse)
  | route (path : String)
deriving Repr, DecidableEq

/-- The dispatch order of `fetch`: `OPTIONS` → 204; `GET` → health JSON;
then the API-key check (401); then non-POST → 405; then path routing. -/
def dispatch (apiKey : Option String) (method : String) (path : String)
    (headerKey : Option String) : Dispatch :=
  if method = "OPTIONS" then .preflight
  else if method = "GET" then .health (jsonResponse healthJson 200)
  else
    match requireKey apiKey headerKey with
    | some msg => .errorResp (errJson msg 401)
    | none =>
      if method = "POST" then .route path
      else .errorResp (errJson "Method Not Allowed" 405)

/-- Behaviour of one `renderPng` invocation's collaborator calls: each step
of the browser interaction either succeeds or throws. -/
structure RenderEngine where
  newPage : Except String Unit
  setViewport : Except String Unit
  setContent : Except String Unit
  fontsReady : Except String Unit
  screenshot : Except String (List Nat)
deriving Repr

/-- What one `renderPng` call did: its result, whether a page was created,
and whether `page.close()` ran. -/
structure RenderTrace where
  result : Except String (List Nat)
  pageCreated : Bool
  pageClosed : Bool
deriving Repr

/-- `renderPng` (source lines 98-113).  `newPage`, `setViewport` and
`setContent` are awaited outside any `try`; the font wait is inside
`try {} catch {}` so its failure is swallowed; only the screenshot is
inside the `try … finally { await page.close() }`. -/
def renderPng (eng : RenderEngine) : RenderTrace :=
  match eng.newPage with
  | .error e => ⟨.error e, false, false⟩
  | .ok _ =>
    match eng.setViewport with
    | .error e => ⟨.error e, true, false⟩
    | .ok _ =>
      match eng.setContent with
      | .error e => ⟨.error e, true, false⟩
      | .ok _ =>
        match eng.fontsReady, eng.screenshot with
        | _, .error e => ⟨.error e, true, true⟩
        | _, .ok png => ⟨.ok png, true, true⟩

/-- Event classifier: a `ZipPassThrough` entry being added. -/
def isAdd : ZipEvent → Bool
  | .addEntry _ => true
  | _ => false

/-- Event classifier: an entry's bytes being pushed (with `final = true`). -/
def isPush : ZipEvent → Bool
  | .pushData _ _ => true
  | _ => false

/-- Event classifier: an exception escaping into the `catch` block. -/
def isFail : ZipEvent → Bool
  | .fail _ => true
  | _ => false

/-- Event classifier: the `zip.end()` call. -/
def isEnd : ZipEvent → Bool
  | .endZip => true
  | _ => false

/-- Number of archive entries created in a trace. -/
def countAdds (evs : List ZipEvent) : Nat := (evs.filter isAdd).length

/-- Number of finalized byte pushes in a trace. -/
def countPushes (evs : List ZipEvent) : Nat := (evs.filter isPush).length

/-- Number of `zip.end()` calls in a trace. -/
def countEnds (evs : List ZipEvent) : Nat := (evs.filter isEnd).length

/-- No exception marker occurs in the trace. -/
def noFails (evs : List ZipEvent) : Bool := evs.all (fun e => !(isFail e))

/-- No `zip.end()` occurs in the trace. -/
def noEnds (evs : List ZipEvent) : Bool := evs.all (fun e => !(isEnd e))

/-- After every failure marker in the trace, no further entry is added. -/
def noAddAfterFail : List ZipEvent → Bool
  | [] => true
  | e :: rest =>
    (if isFail e then rest.all (fun x => !(isAdd x)) else true) && noAddAfterFail rest

/-- The entry names added by a trace, in order. -/
def addNames (evs : List ZipEvent) : List String :=
  evs.filterMap (fun e =>
    match e with
    | .addEntry n => some n
    | _ => none)

/-- Page count of the batch the backend serves at a given offset
(with the loop's fixed limit of 10). -/
def batchPages (backend : Nat → Nat → Except String PageBatch) (o : Nat) : Nat :=
  match backend o 10 with
  | .ok b => b.pages.length
  | .error _ => 0

/-- Total number of page descriptors received across the fetched batches. -/
def sumPages (backend : Nat → Nat → Except String PageBatch) (offsets : List Nat) : Nat :=
  (offsets.map (batchPages backend)).sum

/-- A list of naturals is sorted non-decreasingly. -/
def nonDecr : List Nat → Bool
  | [] => true
  | [_] => true
  | a :: b :: rest => (decide (a ≤ b)) && nonDecr (b :: rest)

/-- An always-successful backend, lifted into the fallible interface. -/
def liftB (backend : Nat → Nat → PageBatch) : Nat → Nat → Except String PageBatch :=
  fun o l => .ok (backend o l)

/-- An always-successful renderer, lifted into the fallible interface. -/
def liftR (render : String → List Nat) : String → Except String (List Nat) :=
  fun h => .ok (render h)

/-- The offset chain a total backend induces from a starting offset:
offset of the (i+1)-st fetch = `nextOffset` of the i-th batch. -/
def chainF (backend : Nat → Nat → PageBatch) (o : Nat) : Nat → Nat
  | 0 => o
  | i + 1 => (backend (chainF backend o i) 10).nextOffset

/-- The trace an all-successful batch contributes: per page in order, one
`addEntry` then one finalized `pushData`, both under the batch's offset. -/
def expectedBatchEvents (render : String → List Nat) (o : Nat) :
    List PageDesc → List ZipEvent
  | [] => []
  | p :: rest =>
    .addEntry (entryName p o) :: .pushData (entryName p o) (render p.html) ::
      expectedBatchEvents render o rest

/-! Helper lemmas about traces. -/

theorem countAdds_append (a b : List ZipEvent) :
    countAdds (a ++ b) = countAdds a + countAdds b := by
  simp [countAdds, List.filter_append]

theorem countPushes_append (a b : List ZipEvent) :
    countPushes (a ++ b) = countPushes a + countPushes b := by
  simp [countPushes, List.filter_append]

theorem countEnds_append (a b : List ZipEvent) :
    countEnds (a ++ b) = countEnds a + countEnds b := by
  simp [countEnds, List.filter_append]

theorem noFails_append (a b : List ZipEvent) :
    noFails (a ++ b) = (noFails a && noFails b) := by
  simp [noFails, List.all_append]

theorem noEnds_append (a b : List ZipEvent) :
    noEnds (a ++ b) = (noEnds a && noEnds b) := by
  simp [noEnds, List.all_append]

theorem countEnds_of_noEnds (evs : List ZipEvent) (h : noEnds evs = true) :
    countEnds evs = 0 := by
  induction evs with
  | nil => rfl
  | cons e rest ih =>
    simp only [noEnds, List.all_cons, Bool.and_eq_true] at h
    rcases h with ⟨he, hr⟩
    rw [Bool.not_eq_true' ] at he
    have hrest := ih hr
    simp only [countEnds, List.filter_cons, he] at hrest ⊢
    simpa using hrest

theorem noAddAfterFail_of_noFails (evs : List ZipEvent)
    (h : noFails evs = true) : noAddAfterFail evs = true := by
  induction evs with
  | nil => rfl
  | cons e rest ih =>
    simp only [noFails, List.all_cons, Bool.and_eq_true] at h
    rcases h with ⟨he, hr⟩
    rw [Bool.not_eq_true' ] at he
    simp [noAddAfterFail, he, ih hr]

theorem noAddAfterFail_fail_end (pre : List ZipEvent) (e : String)
    (h : noFails pre = true) :
    noAddAfterFail (pre ++ [ZipEvent.fail e, ZipEvent.endZip]) = true := by
  induction pre with
  | nil => simp [noAddAfterFail, isFail, isAdd]
  | cons x rest ih =>
    simp only [noFails, List.all_cons, Bool.and_eq_true] at h
    rcases h with ⟨hx, hr⟩
    rw [Bool.not_eq_true' ] at hx
    simp only [List.cons_append, noAddAfterFail, hx]
    simp [ih hr]

theorem getLast_append_endZip (body : List ZipEvent) :
    (body ++ [ZipEvent.endZip]).getLast? = some ZipEvent.endZip := by
  induction body with
  | nil => rfl
  | cons x rest ih =>
    rw [List.cons_append, List.getLast?_cons, ih]
    simp

/-! Lemmas about `processPages`. -/

theorem processPages_lift (render : String → List Nat) (o : Nat) :
    ∀ ps : List PageDesc,
      processPages (liftR render) o ps = (expectedBatchEvents render o ps, none) := by
  intro ps
  induction ps with
  | nil => rfl
  | cons p rest ih => simp [processPages, expectedBatchEvents, liftR, ih]

theorem processPages_cons_error (render : String → Except String (List Nat)) (o : Nat)
    (p : PageDesc) (rest : List PageDesc) (e : String) (hr : render p.html = .error e) :
    processPages render o (p :: rest) =
      ([ZipEvent.addEntry (entryName p o), ZipEvent.fail e], some e) := by
  simp [processPages, hr]

theorem processPages_cons_ok (render : String → Except String (List Nat)) (o : Nat)
    (p : PageDesc) (rest : List PageDesc) (bytes : List Nat)
    (hr : render p.html = .ok bytes) :
    processPages render o (p :: rest) =
      (ZipEvent.addEntry (entryName p o) :: ZipEvent.pushData (entryName p o) bytes ::
        (processPages render o rest).1, (processPages render o rest).2) := by
  rcases hpr : processPages render o rest with ⟨evs, err⟩
  simp [processPages, hr, hpr]

theorem processPages_none_counts (render : String → Except String (List Nat)) (o : Nat) :
    ∀ ps : List PageDesc, (processPages render o ps).2 = none →
      countAdds (processPages render o ps).1 = ps.length ∧
      countPushes (processPages render o ps).1 = ps.length := by
  intro ps
  induction ps with
  | nil => intro _; exact ⟨rfl, rfl⟩
  | cons p rest ih =>
    intro h
    cases hr : render p.html with
    | error e =>
      rw [processPages_cons_error render o p rest e hr] at h
      simp at h
    | ok bytes =>
      rw [processPages_cons_ok render o p rest bytes hr] at h ⊢
      simp only at h
      obtain ⟨h1, h2⟩ := ih h
      simp only [countAdds, countPushes] at h1 h2
      simp [countAdds, countPushes, List.filter_cons, isAdd, isPush, List.length_cons, h1, h2]

theorem processPages_noEnds (render : String → Except String (List Nat)) (o : Nat) :
    ∀ ps : List PageDesc, noEnds (processPages render o ps).1 = true := by
  intro ps
  induction ps with
  | nil => rfl
  | cons p rest ih =>
    cases hr : render p.html with
    | error e =>
      rw [processPages_cons_error render o p rest e hr]
      rfl
    | ok bytes =>
      rw [processPages_cons_ok render o p rest bytes hr]
      simp only [noEnds, List.all_cons, Bool.and_eq_true]
      exact ⟨rfl, rfl, ih⟩

theorem processPages_fail_shape (render : String → Except String (List Nat)) (o : Nat) :
    ∀ ps : List PageDesc,
      ((processPages render o ps).2 = none → noFails (processPages render o ps).1 = true) ∧
      (∀ e, (processPages render o ps).2 = some e →
        ∃ pre, (processPages render o ps).1 = pre ++ [ZipEvent.fail e] ∧ noFails pre = true) := by
  intro ps
  induction ps with
  | nil =>
    constructor
    · intro _; rfl
    · intro e h; simp [processPages] at h
  | cons p rest ih =>
    cases hr : render p.html with
    | error e0 =>
      rw [processPages_cons_error render o p rest e0 hr]
      constructor
      · intro h; simp at h
      · intro e h
        simp only [Option.some.injEq] at h
        subst h
        exact ⟨[ZipEvent.addEntry (entryName p o)], rfl, rfl⟩
    | ok bytes =>
      rw [processPages_cons_ok render o p rest bytes hr]
      constructor
      · intro h
        simp only at h
        have := ih.1 h
        simp only [noFails, List.all_cons, Bool.and_eq_true]
        exact ⟨rfl, rfl, this⟩
      · intro e h
        simp only at h
        obtain ⟨pre, hpre, hnf⟩ := ih.2 e h
        refine ⟨ZipEvent.addEntry (entryName p o) :: ZipEvent.pushData (entryName p o) bytes :: pre, ?_, ?_⟩
        · simp [hpre]
        · simp only [noFails, List.all_cons, Bool.and_eq_true]
          exact ⟨rfl, rfl, hnf⟩

/-! Unfolding equations for one iteration of the pagination loop. -/

theorem fetchLoop_succ_err (backend : Nat → Nat → Except String PageBatch)
    (render : String → Except String (List Nat)) (fuel offset : Nat) (e : String)
    (hb : backend offset 10 = .error e) :
    fetchLoop backend render (fuel + 1) offset =
      some ⟨[offset], [ZipEvent.fail e], some e⟩ := by
  simp [fetchLoop, hb]

theorem fetchLoop_succ_pfail (backend : Nat → Nat → Except String PageBatch)
    (render : String → Except String (List Nat)) (fuel offset : Nat) (batch : PageBatch)
    (evs : List ZipEvent) (e : String)
    (hb : backend offset 10 = .ok batch)
    (hpr : processPages render offset batch.pages = (evs, some e)) :
    fetchLoop backend render (fuel + 1) offset = some ⟨[offset], evs, some e⟩ := by
  simp [fetchLoop, hb, hpr]

theorem fetchLoop_succ_done (backend : Nat → Nat → Except String PageBatch)
    (render : String → Except String (List Nat)) (fuel offset : Nat) (batch : PageBatch)
    (evs : List ZipEvent)
    (hb : backend offset 10 = .ok batch)
    (hpr : processPages render offset batch.pages = (evs, none))
    (hd : batch.done = true) :
    fetchLoop backend render (fuel + 1) offset = some ⟨[offset], evs, none⟩ := by
  simp [fetchLoop, hb, hpr, hd]

theorem fetchLoop_succ_cont (backend : Nat → Nat → Except String PageBatch)
    (render : String → Except String (List Nat)) (fuel offset : Nat) (batch : PageBatch)
    (evs : List ZipEvent)
    (hb : backend offset 10 = .ok batch)
    (hpr : processPages render offset batch.pages = (evs, none))
    (hd : batch.done = false) :
    fetchLoop backend render (fuel + 1) offset =
      (fetchLoop backend render fuel batch.nextOffset).map
        (fun r => ⟨offset :: r.offsets, evs ++ r.events, r.failure⟩) := by
  cases hfl : fetchLoop backend render fuel batch.nextOffset <;>
    simp [fetchLoop, hb, hpr, hd, hfl]

/-! Structural invariants of the loop trace. -/

theorem fetchLoop_shape (backend : Nat → Nat → Except String PageBatch)
    (render : String → Except String (List Nat)) :
    ∀ (fuel o : Nat) (r : LoopResult), fetchLoop backend render fuel o = some r →
      noEnds r.events = true ∧
      (r.failure = none → noFails r.events = true) ∧
      (∀ e, r.failure = some e →
        ∃ pre, r.events = pre ++ [ZipEvent.fail e] ∧ noFails pre = true) := by
  intro fuel
  induction fuel with
  | zero => intro o r h; simp [fetchLoop] at h
  | succ fuel ih =>
    intro o r h
    cases hb : backend o 10 with
    | error e =>
      rw [fetchLoop_succ_err backend render fuel o e hb] at h
      obtain rfl := Option.some.inj h
      refine ⟨rfl, ?_, ?_⟩
      · intro hn; simp at hn
      · intro e2 he
        simp only [Option.some.injEq] at he
        subst he
        exact ⟨[], rfl, rfl⟩
    | ok batch =>
      rcases hpr : processPages render o batch.pages with ⟨evs, err⟩
      have hne := processPages_noEnds render o batch.pages
      have hsh := processPages_fail_shape render o batch.pages
      rw [hpr] at hne hsh
      cases err with
      | some e =>
        rw [fetchLoop_succ_pfail backend render fuel o batch evs e hb hpr] at h
        obtain rfl := Option.some.inj h
        refine ⟨hne, ?_, ?_⟩
        · intro hn; simp at hn
        · intro e2 he
          simp only [Option.some.injEq] at he
          subst he
          exact hsh.2 _ rfl
      | none =>
        cases hd : batch.done with
        | true =>
          rw [fetchLoop_succ_done backend render fuel o batch evs hb hpr hd] at h
          obtain rfl := Option.some.inj h
          refine ⟨hne, fun _ => hsh.1 rfl, ?_⟩
          intro e2 he; simp at he
        | false =>
          rw [fetchLoop_succ_cont backend render fuel o batch evs hb hpr hd] at h
          cases hfl : fetchLoop backend render fuel batch.nextOffset with
          | none => rw [hfl] at h; simp at h
          | some r2 =>
            rw [hfl] at h
            simp only [Option.map_some'] at h
            obtain rfl := Option.some.inj h
            obtain ⟨ihE, ihN, ihS⟩ := ih batch.nextOffset r2 hfl
            refine ⟨?_, ?_, ?_⟩
            · simp only [noEnds_append, Bool.and_eq_true]
              exact ⟨hne, ihE⟩
            · intro hn
              simp only [noFails_append, Bool.and_eq_true]
              exact ⟨hsh.1 rfl, ihN hn⟩
            · intro e2 he
              obtain ⟨pre2, hpre2, hnf2⟩ := ihS e2 he
              refine ⟨evs ++ pre2, ?_, ?_⟩
              · simp only [hpre2, List.append_assoc]
              · simp only [noFails_append, Bool.and_eq_true]
                exact ⟨hsh.1 rfl, hnf2⟩

theorem fetchLoop_counts (backend : Nat → Nat → Except String PageBatch)
    (render : String → Except String (List Nat)) :
    ∀ (fuel o : Nat) (r : LoopResult), fetchLoop backend render fuel o = some r →
      r.failure = none →
      countAdds r.events = sumPages backend r.offsets ∧
      countPushes r.events = sumPages backend r.offsets := by
  intro fuel
  induction fuel with
  | zero => intro o r h; simp [fetchLoop] at h
  | succ fuel ih =>
    intro o r h hc
    cases hb : backend o 10 with
    | error e =>
      rw [fetchLoop_succ_err backend render fuel o e hb] at h
      obtain rfl := Option.some.inj h
      simp at hc
    | ok batch =>
      rcases hpr : processPages render o batch.pages with ⟨evs, err⟩
      cases err with
      | some e =>
        rw [fetchLoop_succ_pfail backend render fuel o batch evs e hb hpr] at h
        obtain rfl := Option.some.inj h
        simp at hc
      | none =>
        have hcounts := processPages_none_counts render o batch.pages (by rw [hpr])
        rw [hpr] at hcounts
        have hbp : batchPages backend o = batch.pages.length := by
          simp [batchPages, hb]
        cases hd : batch.done with
        | true =>
          rw [fetchLoop_succ_done backend render fuel o batch evs hb hpr hd] at h
          obtain rfl := Option.some.inj h
          simp [sumPages, hbp, hcounts.1, hcounts.2]
        | false =>
          rw [fetchLoop_succ_cont backend render fuel o batch evs hb hpr hd] at h
          cases hfl : fetchLoop backend render fuel batch.nextOffset with
          | none => rw [hfl] at h; simp at h
          | some r2 =>
            rw [hfl] at h
            simp only [Option.map_some'] at h
            obtain rfl := Option.some.inj h
            obtain ⟨ih1, ih2⟩ := ih batch.nextOffset r2 hfl hc
            constructor <;>
              simp [countAdds_append, countPushes_append, sumPages, hbp,
                hcounts.1, hcounts.2, ih1, ih2]

/-- The trace an all-successful run produces over the given fetch offsets. -/
def expectedRunEvents (backend : Nat → Nat → PageBatch) (render : String → List Nat) :
    List Nat → List ZipEvent
  | [] => []
  | o :: rest =>
    expectedBatchEvents render o (backend o 10).pages ++ expectedRunEvents backend render rest

theorem chainF_shift (backend : Nat → Nat → PageBatch) (o : Nat) :
    ∀ i, chainF backend ((backend o 10).nextOffset) i = chainF backend o (i + 1) := by
  intro i
  induction i with
  | zero => rfl
  | succ i ih => simp only [chainF, ih]

theorem fetchLoop_total_chain (backend : Nat → Nat → PageBatch) (render : String → List Nat) :
    ∀ (N o fuel : Nat), 0 < N → N ≤ fuel →
      (∀ i, i + 1 < N → (backend (chainF backend o i) 10).done = false) →
      (backend (chainF backend o (N - 1)) 10).done = true →
      fetchLoop (liftB backend) (liftR render) fuel o =
        some ⟨(List.range N).map (chainF backend o),
              expectedRunEvents backend render ((List.range N).map (chainF backend o)),
              none⟩ := by
  intro N
  induction N with
  | zero => intro o fuel h0; exact absurd h0 (lt_irrefl 0)
  | succ N ihN =>
    intro o fuel _ hfuel hnd hd
    obtain ⟨fuel2, rfl⟩ : ∃ f, fuel = f + 1 := ⟨fuel - 1, by omega⟩
    have hb : liftB backend o 10 = .ok (backend o 10) := rfl
    have hpr := processPages_lift render o (backend o 10).pages
    cases N with
    | zero =>
      have hdone : (backend o 10).done = true := by simpa [chainF] using hd
      rw [fetchLoop_succ_done (liftB backend) (liftR render) fuel2 o (backend o 10) _ hb hpr hdone]
      simp [List.range_succ, expectedRunEvents, chainF]
    | succ M =>
      have hdone0 : (backend o 10).done = false := by
        have := hnd 0 (by omega)
        simpa [chainF] using this
      have hshift := chainF_shift backend o
      have ih := ihN ((backend o 10).nextOffset) fuel2 (by omega) (by omega)
        (fun i hi => by rw [hshift i]; exact hnd (i + 1) (by omega))
        (by simp only [Nat.add_sub_cancel]; rw [hshift M]; simpa using hd)
      rw [fetchLoop_succ_cont (liftB backend) (liftR render) fuel2 o (backend o 10) _ hb hpr hdone0,
        ih]
      simp only [Option.map_some', Option.some.injEq]
      have hoffs : (List.range (M + 1 + 1)).map (chainF backend o) =
          o :: (List.range (M + 1)).map (chainF backend ((backend o 10).nextOffset)) := by
        rw [List.range_succ_eq_map]
        simp only [List.map_cons, List.map_map]
        refine congrArg (fun l => chainF backend o 0 :: l) ?_
        exact List.map_congr_left (fun i _ => (hshift i).symm)
      rw [hoffs]
      simp [expectedRunEvents]

theorem fetchLoop_offsets_nonDecr (backend : Nat → Nat → Except String PageBatch)
    (render : String → Except String (List Nat))
    (hmono : ∀ o b, backend o 10 = .ok b → o ≤ b.nextOffset) :
    ∀ (fuel o : Nat) (r : LoopResult), fetchLoop backend render fuel o = some r →
      r.offsets.head? = some o ∧ nonDecr r.offsets = true := by
  intro fuel
  induction fuel with
  | zero => intro o r h; simp [fetchLoop] at h
  | succ fuel ih =>
    intro o r h
    cases hb : backend o 10 with
    | error e =>
      rw [fetchLoop_succ_err backend render fuel o e hb] at h
      obtain rfl := Option.some.inj h
      exact ⟨rfl, rfl⟩
    | ok batch =>
      rcases hpr : processPages render o batch.pages with ⟨evs, err⟩
      cases err with
      | some e =>
        rw [fetchLoop_succ_pfail backend render fuel o batch evs e hb hpr] at h
        obtain rfl := Option.some.inj h
        exact ⟨rfl, rfl⟩
      | none =>
        cases hd : batch.done with
        | true =>
          rw [fetchLoop_succ_done backend render fuel o batch evs hb hpr hd] at h
          obtain rfl := Option.some.inj h
          exact ⟨rfl, rfl⟩
        | false =>
          rw [fetchLoop_succ_cont backend render fuel o batch evs hb hpr hd] at h
          cases hfl : fetchLoop backend render fuel batch.nextOffset with
          | none => rw [hfl] at h; simp at h
          | some r2 =>
            rw [hfl] at h
            simp only [Option.map_some'] at h
            obtain rfl := Option.some.inj h
            obtain ⟨ihH, ihD⟩ := ih batch.nextOffset r2 hfl
            refine ⟨rfl, ?_⟩
            cases ho : r2.offsets with
            | nil => rw [ho] at ihH; simp at ihH
            | cons x tail =>
              rw [ho] at ihH ihD
              have hx : x = batch.nextOffset := by simpa using ihH
              subst hx
              show nonDecr (o :: batch.nextOffset :: tail) = true
              simp only [nonDecr, Bool.and_eq_true, decide_eq_true_eq]
              exact ⟨hmono o batch hb, ihD⟩

theorem addNames_expected (render : String → List Nat) (o : Nat) :
    ∀ ps : List PageDesc,
      addNames (expectedBatchEvents render o ps) = ps.map (fun x => entryName x o) := by
  intro ps
  induction ps with
  | nil => rfl
  | cons p rest ih =>
    simp only [addNames] at ih
    simp [expectedBatchEvents, addNames, List.filterMap_cons, ih]

/-! Concrete backends, renderers and engines used as witnesses. -/

/-- Two-batch backend: batch at offset 0 (one named page, one unnamed page,
`nextOffset` 7), then a final batch at offset 7. -/
def wBackendA : Nat → Nat → Except String PageBatch :=
  fun o _ =>
    if o = 0 then .ok ⟨[⟨some "a.png", "h1"⟩, ⟨none, "h2"⟩], false, 7⟩
    else .ok ⟨[⟨some "b.png", "h3"⟩], true, 0⟩

/-- A renderer that always succeeds with the same bytes. -/
def wRenderA : String → Except String (List Nat) := fun _ => .ok [9, 9]

/-- The loop result of running `wBackendA`/`wRenderA` from offset 0. -/
def wResultA : LoopResult :=
  ⟨[0, 7],
   [.addEntry "a.png", .pushData "a.png" [9, 9],
    .addEntry "page_0.png", .pushData "page_0.png" [9, 9],
    .addEntry "b.png", .pushData "b.png" [9, 9]], none⟩

/-- Single batch of five named pages, `done` immediately. -/
def wBackendB : Nat → Nat → Except String PageBatch :=
  fun _ _ =>
    .ok ⟨[⟨some "p1", "h1"⟩, ⟨some "p2", "h2"⟩, ⟨some "p3", "h3"⟩,
          ⟨some "p4", "h4"⟩, ⟨some "p5", "h5"⟩], true, 0⟩

/-- A renderer that throws on the second page's HTML. -/
def wRenderB : String → Except String (List Nat) :=
  fun h => if h = "h2" then .error "render crashed" else .ok [1]

/-- The archive trace of `wBackendB`/`wRenderB`: page 2 of 5 fails while
rendering, after its entry was added; the loop stops and finalizes. -/
def wEventsB : List ZipEvent :=
  [.addEntry "p1", .pushData "p1" [1], .addEntry "p2", .fail "render crashed", .endZip]

/-- Three declared batches chained 0 → 4 → 9; the final batch reports a
stale `nextOffset` of 2, which must be irrelevant. -/
def wBackendC : Nat → Nat → PageBatch :=
  fun o _ =>
    if o = 0 then ⟨[], false, 4⟩
    else if o = 4 then ⟨[⟨some "x.png", "h"⟩], false, 9⟩
    else ⟨[], true, 2⟩

/-- A total renderer for the chain witnesses. -/
def wRenderC : String → List Nat := fun _ => [7]

/-- Monotone backend: `nextOffset` is always `offset + 10`, done from 20. -/
def wBackendD : Nat → Nat → Except String PageBatch :=
  fun o _ => .ok ⟨[], decide (20 ≤ o), o + 10⟩

/-- Backend whose reported `nextOffset` goes backwards: 0 → 5 → 3. -/
def wBackendE : Nat → Nat → PageBatch :=
  fun o _ =>
    if o = 0 then ⟨[], false, 5⟩
    else if o = 5 then ⟨[], false, 3⟩
    else ⟨[], true, 0⟩

/-- A renderer producing empty byte strings. -/
def wRenderE : String → List Nat := fun _ => []

/-- Rendering engine whose `setViewport` call throws. -/
def leakyEngine : RenderEngine :=
  ⟨.ok (), .error "viewport failed", .ok (), .ok (), .ok [1]⟩

/-- Rendering engine whose screenshot (and font wait) fail. -/
def shotFailEngine : RenderEngine :=
  ⟨.ok (), .ok (), .ok (), .error "fonts unavailable", .error "shot failed"⟩

/-- The upstream body used in the pass-through analysis: valid JSON with
internal whitespace. -/
def sampleBody : String := "\x7b \"ok\": true \x7d"

/-- A `JSON.parse` consistent restriction: parses exactly `sampleBody`
(to the object it denotes). -/
def parseSample : String → Option Json :=
  fun s => if s = sampleBody then some (.obj [("ok", .bool true)]) else none

/-- A parser that accepts anything as a truthy-`ok` object — used to show
HTML-shaped bodies are rejected before any parsing could happen. -/
def wParseOk : String → Option Json := fun _ => some (.obj [("ok", .bool true)])

/-! Claims. -/

/-- C1: for every completed run of the background loop (the loop terminated
with no exception), the number of archive entries created (`addEntry`
events) equals the total number of page descriptors received across all
fetched batches, and so does the number of finalized byte pushes — no page
dropped, no page duplicated. -/
theorem entry_count_eq_page_count (backend : Nat → Nat → Except String PageBatch)
    (render : String → Except String (List Nat)) (fuel : Nat) (r : LoopResult)
    (h : fetchLoop backend render fuel 0 = some r) (hc : r.failure = none) :
    countAdds r.events = sumPages backend r.offsets ∧
    countPushes r.events = sumPages backend r.offsets :=
  fetchLoop_counts backend render fuel 0 r h hc

theorem entry_count_eq_page_count_witness :
    fetchLoop wBackendA wRenderA 5 0 = some wResultA ∧
    (countAdds wResultA.events = sumPages wBackendA wResultA.offsets ∧
     countPushes wResultA.events = sumPages wBackendA wResultA.offsets) :=
  ⟨rfl, entry_count_eq_page_count wBackendA wRenderA 5 wResultA rfl rfl⟩

/-- C2 counterexample: `puppeteer.launch` is awaited before the `try`
block, so a launch rejection terminates the background task with no writer
action at all — the task ends with zero `zip.end()` calls, not exactly
one, so finalization does not happen on every path. -/
theorem zip_end_skipped_on_launch_failure :
    backgroundTask (.error "browser launch failed") wBackendB wRenderB 3 = some [] ∧
    countEnds ([] : List ZipEvent) = 0 :=
  ⟨rfl, rfl⟩

/-- C2 amended: once `puppeteer.launch` has resolved, whenever the
background task terminates — normal completion, a rendering failure
mid-run, or a backend-fetch failure — `zip.end()` is called exactly once,
as the very last writer action, and after a mid-run failure no further
entries are added to the archive; a launch rejection, by contrast,
terminates the task without `zip.end()` ever being called. -/
theorem zip_finalized_once_after_launch (launch : Except String Unit)
    (backend : Nat → Nat → Except String PageBatch)
    (render : String → Except String (List Nat)) (fuel : Nat) (evs : List ZipEvent)
    (hl : launch = .ok ())
    (h : backgroundTask launch backend render fuel = some evs) :
    countEnds evs = 1 ∧ evs.getLast? = some ZipEvent.endZip ∧ noAddAfterFail evs = true := by
  subst hl
  simp only [backgroundTask] at h
  cases hfl : fetchLoop backend render fuel 0 with
  | none => rw [hfl] at h; simp at h
  | some r =>
    rw [hfl] at h
    simp only [Option.some.injEq] at h
    subst h
    obtain ⟨hE, hN, hS⟩ := fetchLoop_shape backend render fuel 0 r hfl
    refine ⟨?_, getLast_append_endZip r.events, ?_⟩
    · rw [countEnds_append, countEnds_of_noEnds r.events hE]; rfl
    · cases hf : r.failure with
      | none =>
        apply noAddAfterFail_of_noFails
        simp only [noFails_append, Bool.and_eq_true]
        exact ⟨hN hf, rfl⟩
      | some e =>
        obtain ⟨pre, hpre, hnf⟩ := hS e hf
        rw [hpre, List.append_assoc]
        exact noAddAfterFail_fail_end pre e hnf

theorem zip_finalized_once_after_launch_witness :
    (Except.ok () : Except String Unit) = .ok () ∧
    backgroundTask (.ok ()) wBackendB wRenderB 3 = some wEventsB ∧
    (countEnds wEventsB = 1 ∧ wEventsB.getLast? = some ZipEvent.endZip ∧
     noAddAfterFail wEventsB = true) :=
  ⟨rfl, rfl,
   zip_finalized_once_after_launch (.ok ()) wBackendB wRenderB 3 wEventsB rfl rfl⟩

/-- C3: against a backend declaring N batches along its `nextOffset` chain
from 0 (the first N-1 not done, the N-th done), with all renders
succeeding, the loop issues exactly N fetch calls — at exactly the
backend-reported chain of offsets, not at `offset + limit` — terminates
precisely at the `done=true` batch regardless of that batch's `nextOffset`,
and completes without failure. -/
theorem loop_stops_exactly_on_done (backend : Nat → Nat → PageBatch)
    (render : String → List Nat) (N fuel : Nat) (hN : 0 < N) (hfuel : N ≤ fuel)
    (hnd : ∀ i, i + 1 < N → (backend (chainF backend 0 i) 10).done = false)
    (hd : (backend (chainF backend 0 (N - 1)) 10).done = true) :
    fetchLoop (liftB backend) (liftR render) fuel 0 =
      some ⟨(List.range N).map (chainF backend 0),
            expectedRunEvents backend render ((List.range N).map (chainF backend 0)),
            none⟩ ∧
    ((List.range N).map (chainF backend 0)).length = N :=
  ⟨fetchLoop_total_chain backend render N 0 fuel hN hfuel hnd hd, by simp⟩

theorem loop_stops_exactly_on_done_witness :
    (fetchLoop (liftB wBackendC) (liftR wRenderC) 5 0 =
      some ⟨(List.range 3).map (chainF wBackendC 0),
            expectedRunEvents wBackendC wRenderC ((List.range 3).map (chainF wBackendC 0)),
            none⟩ ∧
     ((List.range 3).map (chainF wBackendC 0)).length = 3) :=
  loop_stops_exactly_on_done wBackendC wRenderC 3 5 (by decide) (by decide)
    (fun i hi =>
      match i, hi with
      | 0, _ => rfl
      | 1, _ => rfl
      | i + 2, hi => absurd hi (by omega))
    rfl

/-- C4 counterexample: the prepare handler re-serializes the parsed JSON
(`json(data)` = `JSON.stringify(JSON.parse(text))`), so for a backend body
with internal whitespace the 200 response body is not byte-for-byte the
backend's text — the pass-through is not verbatim. -/
theorem prepare_not_byte_verbatim :
    (handlePrepare parseSample (some (.fileVal "b.xlsx" [1]))
        ⟨"application/json", sampleBody⟩).status = 200 ∧
    (handlePrepare parseSample (some (.fileVal "b.xlsx" [1]))
        ⟨"application/json", sampleBody⟩).body ≠ sampleBody := by
  constructor
  · rfl
  · decide

/-- C4 amended: for every valid prepare request (file attached, backend
response accepted by `appsPost` with a truthy `ok`), the 200 response body
is the re-serialization of the backend's parsed JSON value — the JSON value
is passed through unmodified, though its textual rendering may differ. -/
theorem prepare_passthrough_value (parse : String → Option Json) (name : String)
    (bytes : List Nat) (up : UpstreamResp) (v : Json)
    (h : appsPost parse up = .ok v) :
    handlePrepare parse (some (.fileVal name bytes)) up = jsonResponse v 200 := by
  simp [handlePrepare, h]

theorem prepare_passthrough_value_witness :
    appsPost parseSample ⟨"application/json", sampleBody⟩ =
      .ok (.obj [("ok", .bool true)]) ∧
    handlePrepare parseSample (some (.fileVal "b.xlsx" [1]))
        ⟨"application/json", sampleBody⟩ =
      jsonResponse (.obj [("ok", .bool true)]) 200 :=
  ⟨rfl, prepare_passthrough_value parseSample "b.xlsx" [1]
    ⟨"application/json", sampleBody⟩ (.obj [("ok", .bool true)]) rfl⟩

/-- C5: a render request whose `outputSpreadsheetId` is absent or trims to
the empty string is answered by the 400 JSON error `Thiếu
outputSpreadsheetId`, taking the `early` branch — i.e. before
`streamZipResponse` opens the archive stream and before `puppeteer.launch`
starts the rendering engine. -/
theorem missing_output_id_rejected (launch : Except String Unit)
    (backend : Nat → Nat → Except String PageBatch)
    (render : String → Except String (List Nat)) (fuel : Nat)
    (oid zipName : Option String) (h : jsTrim (oid.getD "") = "") :
    handleRender launch backend render fuel oid zipName =
      .early (errJson "Thiếu outputSpreadsheetId" 400) := by
  simp [handleRender, h]

theorem missing_output_id_rejected_witness :
    jsTrim ((some "   " : Option String).getD "") = "" ∧
    handleRender (.ok ()) wBackendA wRenderA 1 (some "   ") none =
      .early (errJson "Thiếu outputSpreadsheetId" 400) :=
  ⟨rfl, missing_output_id_rejected (.ok ()) wBackendA wRenderA 1 (some "   ") none rfl⟩

/-- C6: an upstream response whose trimmed body starts with `<!doctype`, or
whose content type mentions `text/html`, makes `appsPost` throw the
configuration error whose message is the fixed intro followed by the first
200 characters of that trimmed body — for every conceivable JSON parser,
so such a body is never parsed and treated as valid JSON. -/
theorem html_upstream_rejected (parse : String → Option Json) (ct body : String)
    (h : jsStartsWith (jsTrim body) "<!doctype" = true ∨
         containsSub (lowerStr ct) "text/html" = true) :
    appsPost parse ⟨ct, body⟩ = .error (htmlMsgIntro ++ strTake (jsTrim body) 200) := by
  have hl : looksHtml (lowerStr ct) (jsTrim body) = true := by
    rcases h with h | h
    · simp [looksHtml, h]
    · simp [looksHtml, h]
  simp [appsPost, hl, htmlSnippetMsg]

theorem html_upstream_rejected_witness :
    (jsStartsWith (jsTrim "<!doctype html><body>Login</body>") "<!doctype" = true ∨
      containsSub (lowerStr "text/html; charset=utf-8") "text/html" = true) ∧
    appsPost wParseOk ⟨"text/html; charset=utf-8", "<!doctype html><body>Login</body>"⟩ =
      .error (htmlMsgIntro ++ strTake (jsTrim "<!doctype html><body>Login</body>") 200) :=
  ⟨Or.inl rfl,
   html_upstream_rejected wParseOk "text/html; charset=utf-8"
     "<!doctype html><body>Login</body>" (Or.inl rfl)⟩

/-- C7 counterexample: when `setViewport` throws, the error propagates out of
`renderPng` with the page created but never closed — `page.close()` only
guards the screenshot, because `setViewport`/`setContent` are awaited
outside the `try … finally`.  So the context is *not* released on every
path. -/
theorem render_context_leak :
    (renderPng leakyEngine).pageCreated = true ∧
    (renderPng leakyEngine).pageClosed = false ∧
    (renderPng leakyEngine).result = .error "viewport failed" :=
  ⟨rfl, rfl, rfl⟩

/-- C7 amended: once `newPage`, `setViewport` and `setContent` have
succeeded, `page.close()` runs on every remaining path — font-wait failures
are swallowed and a screenshot failure still reaches the `finally` — but a
`setViewport` or `setContent` failure propagates without the page being
closed. -/
theorem render_context_released_after_load (eng : RenderEngine)
    (h1 : eng.newPage = .ok ()) (h2 : eng.setViewport = .ok ())
    (h3 : eng.setContent = .ok ()) :
    (renderPng eng).pageClosed = true := by
  cases hf : eng.fontsReady <;> cases hs : eng.screenshot <;>
    simp [renderPng, h1, h2, h3, hf, hs]

theorem render_context_released_witness :
    shotFailEngine.newPage = .ok () ∧ shotFailEngine.setViewport = .ok () ∧
    shotFailEngine.setContent = .ok () ∧
    (renderPng shotFailEngine).pageClosed = true :=
  ⟨rfl, rfl, rfl, render_context_released_after_load shotFailEngine rfl rfl rfl⟩

/-- C8 counterexample: a GET request with an API key configured and no
`X-API-Key` header is answered by the health check (status 200 JSON), not
by a 401 — the GET branch runs before `requireKey` is ever consulted, so
the claim fails for GET (and OPTIONS) requests. -/
theorem auth_not_enforced_for_get :
    dispatch (some "secret") "GET" "/api/render" none =
      .health (jsonResponse healthJson 200) ∧
    Dispatch.health (jsonResponse healthJson 200) ≠
      Dispatch.errorResp (errJson "Unauthorized" 401) := by
  constructor
  · rfl
  · decide

/-- C8 amended: for every request that is neither an OPTIONS preflight nor a
GET health check, when a non-empty API key is configured and the request's
`x-api-key` header (defaulted to `""`) differs from it, the response is the
401 `Unauthorized` JSON error. -/
theorem auth_enforced_after_health (apiKey headerKey : Option String)
    (method path : String)
    (hm1 : method ≠ "OPTIONS") (hm2 : method ≠ "GET")
    (hk : apiKey.getD "" ≠ "") (hmis : headerKey.getD "" ≠ apiKey.getD "") :
    dispatch apiKey method path headerKey = .errorResp (errJson "Unauthorized" 401) := by
  simp [dispatch, requireKey, hm1, hm2, hk, hmis]

theorem auth_enforced_after_health_witness :
    ("POST" ≠ "OPTIONS") ∧ ("POST" ≠ "GET") ∧
    ((some "k" : Option String).getD "" ≠ "") ∧
    ((none : Option String).getD "" ≠ (some "k" : Option String).getD "") ∧
    dispatch (some "k") "POST" "/api/run" none = .errorResp (errJson "Unauthorized" 401) :=
  ⟨by decide, by decide, by decide, by decide,
   auth_enforced_after_health (some "k") none "POST" "/api/run"
     (by decide) (by decide) (by decide) (by decide)⟩

/-- C9 counterexample: the loop adopts whatever `nextOffset` the backend
reports, with no monotonicity check — a backend answering 0 → 5 → 3 yields
the offset sequence [0, 5, 3], which is not non-decreasing. -/
theorem cursor_offsets_can_decrease :
    fetchLoop (liftB wBackendE) (liftR wRenderE) 10 0 =
      some ⟨[0, 5, 3], [], none⟩ ∧
    nonDecr [0, 5, 3] = false :=
  ⟨rfl, rfl⟩

/-- C9 amended: the offset sequence starts at 0 and is non-decreasing
provided the backend's reported `nextOffset` is always at least the offset
of the batch that reported it; the code itself never enforces this. -/
theorem cursor_nonDecr_when_backend_monotone (backend : Nat → Nat → Except String PageBatch)
    (render : String → Except String (List Nat)) (fuel : Nat) (r : LoopResult)
    (hmono : ∀ o b, backend o 10 = Except.ok b → o ≤ b.nextOffset)
    (h : fetchLoop backend render fuel 0 = some r) :
    r.offsets.head? = some 0 ∧ nonDecr r.offsets = true :=
  fetchLoop_offsets_nonDecr backend render hmono fuel 0 r h

theorem cursor_nonDecr_witness :
    (⟨[0, 10, 20], [], none⟩ : LoopResult).offsets.head? = some 0 ∧
    nonDecr (⟨[0, 10, 20], [], none⟩ : LoopResult).offsets = true :=
  cursor_nonDecr_when_backend_monotone wBackendD (liftR wRenderE) 4
    ⟨[0, 10, 20], [], none⟩
    (fun o b hb => by
      simp only [wBackendD, Except.ok.injEq] at hb
      subst hb
      show o ≤ o + 10
      omega)
    rfl

/-- C10: a page whose `name` is absent or empty gets the archive entry name
`page_<offset>.png` built from the current batch offset; the names the loop
adds for a batch are exactly `entryName` under that one offset, so two
unnamed pages in the same batch receive identical entry names. -/
theorem unnamed_pages_collide (render : String → List Nat) (o : Nat)
    (ps : List PageDesc) (p q : PageDesc)
    (hp : p.name = none ∨ p.name = some "") (hq : q.name = none ∨ q.name = some "") :
    addNames (processPages (liftR render) o ps).1 = ps.map (fun x => entryName x o) ∧
    entryName p o = "page_" ++ toString o ++ ".png" ∧
    entryName p o = entryName q o := by
  refine ⟨?_, ?_, ?_⟩
  · rw [processPages_lift render o ps]
    exact addNames_expected render o ps
  · rcases hp with hp | hp <;> simp [entryName, orDefaultStr, hp]
  · rcases hp with hp | hp <;> rcases hq with hq | hq <;>
      simp [entryName, orDefaultStr, hp, hq]

theorem unnamed_pages_collide_witness :
    ((⟨none, "hA"⟩ : PageDesc).name = none ∨ (⟨none, "hA"⟩ : PageDesc).name = some "") ∧
    (addNames (processPages (liftR wRenderC) 3
        [⟨none, "hA"⟩, ⟨some "", "hB"⟩]).1 =
        ([⟨none, "hA"⟩, ⟨some "", "hB"⟩] : List PageDesc).map (fun x => entryName x 3) ∧
     entryName ⟨none, "hA"⟩ 3 = "page_" ++ toString 3 ++ ".png" ∧
     entryName ⟨none, "hA"⟩ 3 = entryName ⟨some "", "hB"⟩ 3) :=
  ⟨Or.inl rfl,
   unnamed_pages_collide wRenderC 3 [⟨none, "hA"⟩, ⟨some "", "hB"⟩]
     ⟨none, "hA"⟩ ⟨some "", "hB"⟩ (Or.inl rfl) (Or.inr rfl)⟩

end Spec2Proof
